import Mathlib

/-!
Verification of the dataset-construction pipeline in `create_dataset.py`.

The program has two functions.  `get_cancer_df` loads two tables, projects
each to a fixed column subset, filters the metadata table to rows with
`Modality == "US"`, derives a boolean `cancer` column by an inclusive
threshold comparison on the UCLA score, and inner-merges the two tables on
the `Series UID` column.  `create_image_datasets` creates two output
directories idempotently and then, for each joined row, lists the series
directory (skipping the row on any listing failure), reads the first file
as a volumetric image, and writes the slices at indices 130 and 134 (when
they exist) into a directory chosen by the row's `cancer` flag.

Tables are embedded as lists of structures.  File-system effects are
embedded by an explicit `FS` record of oracles; the materializer is a pure
function from `FS` to a trace of events, returning `Except` because a
failure of the volumetric read is not caught by the program.
-/

namespace CreateDataset

/-- A row of `datasets/metadata.csv` after projection to the five columns
kept by `meta_data_columns_to_keep`. -/
structure MetaRow where
  subjectID : String
  modality : String
  sopClassName : String
  fileLocation : String
  seriesUID : String
deriving DecidableEq

/-- A row of the target spreadsheet after projection to the three columns
kept by `target_columns_to_keep` and after the column rename of
`seriesInstanceUID_US` to `Series UID`. -/
structure TargetRow where
  uclaScore : Int
  patientID : String
  seriesUID : String
deriving DecidableEq

/-- A target row carrying the derived boolean `cancer` column. -/
structure LabeledTargetRow where
  uclaScore : Int
  patientID : String
  seriesUID : String
  cancer : Bool
deriving DecidableEq

/-- The assignment
`target_data_df["cancer"] = target_data_df["UCLA Score (Similar to PIRADS v2)"] >= threshold_for_cancer`
applied to one row. -/
def labelTarget (threshold : Int) (t : TargetRow) : LabeledTargetRow :=
  ⟨t.uclaScore, t.patientID, t.seriesUID, decide (t.uclaScore ≥ threshold)⟩

/-- A row of the merged dataframe `cancer_df`: the columns of the metadata
row followed by the columns of the labeled target row (the shared
`Series UID` appearing once, as pandas does for the join key). -/
structure CancerRow where
  subjectID : String
  modality : String
  sopClassName : String
  fileLocation : String
  seriesUID : String
  uclaScore : Int
  patientID : String
  cancer : Bool
deriving DecidableEq

/-- Combination of one metadata row and one labeled target row that agree
on the join key into one merged row. -/
def mergeRow (m : MetaRow) (t : LabeledTargetRow) : CancerRow :=
  ⟨m.subjectID, m.modality, m.sopClassName, m.fileLocation, m.seriesUID,
    t.uclaScore, t.patientID, t.cancer⟩

/-- The call `pd.merge(metadata_df, target_data_df, on="Series UID")`:
an inner join, pairing every left row with every right row that carries
the same `Series UID`. -/
def merge (ms : List MetaRow) (ts : List LabeledTargetRow) : List CancerRow :=
  ms.flatMap fun m => (ts.filter fun t => t.seriesUID == m.seriesUID).map (mergeRow m)

/-- The filter `metadata_df[metadata_df["Modality"] == "US"]`. -/
def filterUS (rows : List MetaRow) : List MetaRow :=
  rows.filter fun r => r.modality == "US"

/-- The whole of `get_cancer_df`, abstracted over the two loaded tables
(file reading is outside the embedding): filter the metadata table to the
`US` modality, label the target table against the threshold, and merge on
the series identifier. -/
def get_cancer_df (threshold : Int) (metadataRows : List MetaRow)
    (targetRows : List TargetRow) : List CancerRow :=
  merge (filterUS metadataRows) (targetRows.map (labelTarget threshold))

/-- C1: for every row of the labeled score table and every integer
threshold, the derived boolean satisfies `cancer = (score >= threshold)`,
and in the boundary case `score = threshold` the label is `true`. -/
theorem c1_cancer_label (threshold : Int) (ts : List TargetRow)
    (r : LabeledTargetRow) (hr : r ∈ ts.map (labelTarget threshold)) :
    (r.cancer = true ↔ r.uclaScore ≥ threshold) ∧
      (r.uclaScore = threshold → r.cancer = true) := by
  obtain ⟨t, _, rfl⟩ := List.mem_map.mp hr
  refine ⟨by simp [labelTarget], fun h => ?_⟩
  simp only [labelTarget] at h ⊢
  simp [h]

/-- Concrete instance of `c1_cancer_label` at score 4 and threshold 4. -/
theorem c1_cancer_label_witness :
    ((labelTarget 4 ⟨4, "P1", "S1"⟩).cancer = true ↔
        (labelTarget 4 ⟨4, "P1", "S1"⟩).uclaScore ≥ 4) ∧
      ((labelTarget 4 ⟨4, "P1", "S1"⟩).uclaScore = 4 →
        (labelTarget 4 ⟨4, "P1", "S1"⟩).cancer = true) :=
  c1_cancer_label 4 [⟨4, "P1", "S1"⟩] (labelTarget 4 ⟨4, "P1", "S1"⟩) (by simp)

/-- C2: the merge has inner-join semantics on `Series UID`: an identifier
occurs in the output exactly when it occurs in both input tables. -/
theorem c2_inner_join (ms : List MetaRow) (ts : List LabeledTargetRow)
    (u : String) :
    (∃ r ∈ merge ms ts, r.seriesUID = u) ↔
      (∃ m ∈ ms, m.seriesUID = u) ∧ ∃ t ∈ ts, t.seriesUID = u := by
  constructor
  · rintro ⟨r, hr, hu⟩
    simp only [merge, List.mem_flatMap, List.mem_map, List.mem_filter] at hr
    obtain ⟨m, hm, t, ⟨ht, heq⟩, rfl⟩ := hr
    have hteq : t.seriesUID = m.seriesUID := by simpa using heq
    exact ⟨⟨m, hm, hu⟩, ⟨t, ht, hteq.trans hu⟩⟩
  · rintro ⟨⟨m, hm, hmu⟩, ⟨t, ht, htu⟩⟩
    refine ⟨mergeRow m t, ?_, hmu⟩
    simp only [merge, List.mem_flatMap, List.mem_map, List.mem_filter]
    exact ⟨m, hm, t, ⟨ht, by simp [htu, hmu]⟩, rfl⟩

/-- C4: a metadata row survives the `Modality` filter exactly when its
modality is `"US"`, and the filter changes no multiplicities otherwise:
the count of a surviving row is its count in the input. -/
theorem c4_modality_filter (rows : List MetaRow) (r : MetaRow) :
    (r ∈ filterUS rows ↔ r ∈ rows ∧ r.modality = "US") ∧
      (filterUS rows).count r =
        (if r.modality = "US" then rows.count r else 0) := by
  refine ⟨by simp [filterUS, List.mem_filter], ?_⟩
  by_cases hr : r.modality = "US"
  · rw [if_pos hr]
    exact List.count_filter (by simpa using hr)
  · rw [if_neg hr, List.count_eq_zero]
    simp [filterUS, List.mem_filter, hr]

/-- Rows contributed to the merge by a single metadata row all carry that
row's series identifier, so counting them against an identifier gives the
target-side count when the identifiers agree and zero otherwise. -/
lemma countP_mergeBlock (m : MetaRow) (ts : List LabeledTargetRow) (u : String) :
    (((ts.filter fun t => t.seriesUID == m.seriesUID).map (mergeRow m)).countP
        fun r => r.seriesUID == u) =
      if m.seriesUID = u then (ts.countP fun t => t.seriesUID == u) else 0 := by
  rw [List.countP_map]
  by_cases hm : m.seriesUID = u
  · subst hm
    rw [if_pos rfl]
    have h1 : ((fun r : CancerRow => r.seriesUID == m.seriesUID) ∘ mergeRow m) =
        fun _ : LabeledTargetRow => true := by
      funext t; simp [mergeRow]
    rw [h1, List.countP_true]
    exact (List.countP_eq_length_filter _ _).symm
  · rw [if_neg hm]
    have h1 : ((fun r : CancerRow => r.seriesUID == u) ∘ mergeRow m) =
        fun _ : LabeledTargetRow => false := by
      funext t; simp [mergeRow, hm]
    rw [h1, List.countP_false]
    rfl

/-- The merge multiplies multiplicities of a series identifier: its count
in the output is the product of its counts in the two inputs. -/
lemma countP_merge (ms : List MetaRow) (ts : List LabeledTargetRow) (u : String) :
    ((merge ms ts).countP fun r => r.seriesUID == u) =
      (ms.countP fun m => m.seriesUID == u) *
        (ts.countP fun t => t.seriesUID == u) := by
  induction ms with
  | nil => simp [merge]
  | cons m ms ih =>
    have hcons : merge (m :: ms) ts =
        ((ts.filter fun t => t.seriesUID == m.seriesUID).map (mergeRow m)) ++
          merge ms ts := by
      simp [merge]
    rw [hcons, List.countP_append, ih, countP_mergeBlock, List.countP_cons]
    by_cases hm : m.seriesUID = u
    · simp only [hm, beq_self_eq_true, if_pos]
      ring
    · have hb : (m.seriesUID == u) = false := by simpa using hm
      simp [hm, hb]

/-- C7: the join does not deduplicate: an identifier occurring `m` times
in the filtered metadata table and `k` times in the score table occurs
exactly `m * k` times in `get_cancer_df`'s output. -/
theorem c7_join_fanout (threshold : Int) (metadataRows : List MetaRow)
    (targetRows : List TargetRow) (u : String) :
    ((get_cancer_df threshold metadataRows targetRows).countP
        fun r => r.seriesUID == u) =
      ((filterUS metadataRows).countP fun m => m.seriesUID == u) *
        (targetRows.countP fun t => t.seriesUID == u) := by
  rw [get_cancer_df, countP_merge, List.countP_map]
  congr 1

/-- Oracles standing for the file system seen by `create_image_datasets`:
`listdir` is `os.listdir` (`none` when listing raises, for example on a
missing directory or a permission error); `sliceCount` gives the first
dimension of `dicom.dcmread(path).pixel_array` (`none` when reading or
decoding raises); `writeOk` is the boolean result of `cv2.imwrite`. -/
structure FS where
  listdir : String → Option (List String)
  sliceCount : String → Option Nat
  writeOk : String → Bool

/-- Observable per-row actions of the materializer: the skip message
printed by the `except` branch, naming the path that failed to list, and
one write attempt per emitted slice, recording the destination directory,
the row index, the slice index and whether `cv2.imwrite` succeeded. -/
inductive Event where
  | skip (path : String)
  | write (dir : String) (row : Nat) (slice : Nat) (ok : Bool)
deriving DecidableEq

/-- Slice index of a write event. -/
def Event.sliceIdx : Event → Option Nat
  | .skip _ => none
  | .write _ _ s _ => some s

/-- Simplified `os.path.join` on relative paths. -/
def pathJoin (a b : String) : String := a ++ "/" ++ b

/-- The series directory of a row:
`os.path.join(path_to_manifest_folder, cancer_df.iloc[i]["File Location"][2:])`. -/
def seriesPath (manifest : String) (r : CancerRow) : String :=
  pathJoin manifest (r.fileLocation.drop 2)

/-- The destination directory chosen for a row by the branch on
`cancer_df.iloc[i]["cancer"]`. -/
def destDir (cwd : String) (r : CancerRow) : String :=
  if r.cancer then pathJoin cwd "images/cancer"
  else pathJoin cwd "images/nonmalignant"

/-- Output filename of one slice: `image_{i}_{slice_number}.jpg`. -/
def sliceFileName (i slice : Nat) : String :=
  "image_" ++ toString i ++ "_" ++ toString slice ++ ".jpg"

/-- One iteration of the row loop of `create_image_datasets`.  A listing
failure (including an empty directory, whose `[0]` lookup raises the
`IndexError` caught by the same `except`) produces a skip event and no
writes.  A successful listing takes the first entry, reads it as a
volumetric image — a read failure is uncaught, hence `Except.error` — and
attempts one write for each slice index of the volume lying in
`[130, 134]`. -/
def processRow (fs : FS) (manifest cwd : String) (i : Nat) (r : CancerRow) :
    Except String (List Event) :=
  let originalImagePath := seriesPath manifest r
  match fs.listdir originalImagePath with
  | none => .ok [.skip originalImagePath]
  | some [] => .ok [.skip originalImagePath]
  | some (dcmFile :: _) =>
    let newImageLocation := destDir cwd r
    let filePath := pathJoin originalImagePath dcmFile
    match fs.sliceCount filePath with
    | none => .error filePath
    | some n =>
      .ok <| (List.range n).filterMap fun sliceNumber =>
        if sliceNumber = 130 ∨ sliceNumber = 134 then
          some (.write newImageLocation i sliceNumber
            (fs.writeOk (pathJoin newImageLocation (sliceFileName i sliceNumber))))
        else none

/-- The row loop `for i in range(cancer_df.shape[0])`, threading the row
index and collecting each row's events; an uncaught read failure aborts
the remaining rows. -/
def processRows (fs : FS) (manifest cwd : String) :
    Nat → List CancerRow → Except String (List (Nat × List Event))
  | _, [] => .ok []
  | i, r :: rest => do
    let evs ← processRow fs manifest cwd i r
    let tail ← processRows fs manifest cwd (i + 1) rest
    pure ((i, evs) :: tail)

/-- The guarded `os.makedirs` call: create the directory only when it does
not already exist.  The directory state is the list of existing
directories in creation order. -/
def ensureDir (dirs : List String) (d : String) : List String :=
  if d ∈ dirs then dirs else dirs ++ [d]

/-- The two guarded directory creations at the top of
`create_image_datasets`. -/
def setupDirs (dirs : List String) : List String :=
  ensureDir (ensureDir dirs "images/cancer") "images/nonmalignant"

/-- The whole of `create_image_datasets`: directory setup followed by the
row loop, returning the final directory state and the trace. -/
def create_image_datasets (fs : FS) (dirs : List String) (manifest cwd : String)
    (rows : List CancerRow) :
    List String × Except String (List (Nat × List Event)) :=
  (setupDirs dirs, processRows fs manifest cwd 0 rows)

/-- Slice indices of the write events of a trace, in order. -/
def writeSlices (evs : List Event) : List Nat := evs.filterMap Event.sliceIdx

/-- A successful listing followed by a successful volumetric read reduces
a row to its slice loop. -/
lemma processRow_ok (fs : FS) (manifest cwd : String) (i : Nat) (r : CancerRow)
    (f : String) (l : List String) (n : Nat)
    (hdir : fs.listdir (seriesPath manifest r) = some (f :: l))
    (hvol : fs.sliceCount (pathJoin (seriesPath manifest r) f) = some n) :
    processRow fs manifest cwd i r =
      .ok ((List.range n).filterMap fun sliceNumber =>
        if sliceNumber = 130 ∨ sliceNumber = 134 then
          some (.write (destDir cwd r) i sliceNumber
            (fs.writeOk (pathJoin (destDir cwd r) (sliceFileName i sliceNumber))))
        else none) := by
  simp only [processRow, hdir, hvol]

/-- A successful listing followed by a failing volumetric read turns the
row into an uncaught error carrying the file path. -/
lemma processRow_err_of_read (fs : FS) (manifest cwd : String) (i : Nat)
    (r : CancerRow) (f : String) (l : List String)
    (hdir : fs.listdir (seriesPath manifest r) = some (f :: l))
    (hvol : fs.sliceCount (pathJoin (seriesPath manifest r) f) = none) :
    processRow fs manifest cwd i r =
      .error (pathJoin (seriesPath manifest r) f) := by
  simp only [processRow, hdir, hvol]

/-- The write slices of a slice loop over any index list are the indices
of that list lying in the fixed set, whatever the write results are. -/
lemma writeSlices_rowEvents (d : String) (i : Nat) (g : Nat → Bool)
    (l : List Nat) :
    writeSlices (l.filterMap fun s =>
        if s = 130 ∨ s = 134 then some (Event.write d i s (g s)) else none) =
      l.filter fun s => decide (s = 130 ∨ s = 134) := by
  induction l with
  | nil => rfl
  | cons a l ih =>
    by_cases h : a = 130 ∨ a = 134 <;>
      simp [writeSlices, Event.sliceIdx, List.filterMap_cons, List.filter_cons,
        h] at ih ⊢ <;>
      exact ih

/-- Every event produced by a slice loop is a write event into the loop's
destination directory at the loop's row index. -/
lemma rowEvents_dir {d : String} {i n : Nat} {g : Nat → Bool} {e : Event}
    (he : e ∈ (List.range n).filterMap fun s =>
      if s = 130 ∨ s = 134 then some (Event.write d i s (g s)) else none) :
    ∃ s b, e = Event.write d i s b := by
  simp only [List.mem_filterMap] at he
  obtain ⟨s, -, hs⟩ := he
  by_cases h : s = 130 ∨ s = 134
  · rw [if_pos h, Option.some_inj] at hs
    exact ⟨s, _, hs.symm⟩
  · rw [if_neg h] at hs
    exact absurd hs (by simp)

/-- C3: for a row whose directory listing succeeds, a volume of exactly
135 slices produces exactly two write attempts, at slice indices 130 and
134, and a volume of 100 slices produces none. -/
theorem c3_write_counts (fs : FS) (manifest cwd : String) (i : Nat)
    (r : CancerRow) (f : String) (l : List String) (n : Nat)
    (hdir : fs.listdir (seriesPath manifest r) = some (f :: l))
    (hvol : fs.sliceCount (pathJoin (seriesPath manifest r) f) = some n)
    (hn : n = 135 ∨ n = 100) :
    ∃ evs, processRow fs manifest cwd i r = .ok evs ∧
      writeSlices evs = if n = 135 then [130, 134] else [] := by
  refine ⟨_, processRow_ok fs manifest cwd i r f l n hdir hvol, ?_⟩
  rw [writeSlices_rowEvents]
  rcases hn with rfl | rfl <;> decide

/-- C10: for a row whose directory listing succeeds and whose volume has
`n` slices, the written slice indices are exactly the members of
`[130, 134]` below `n`; for `131 ≤ n ≤ 134` exactly one write happens, at
index 130. -/
theorem c10_slice_index_set (fs : FS) (manifest cwd : String) (i : Nat)
    (r : CancerRow) (f : String) (l : List String) (n : Nat)
    (hdir : fs.listdir (seriesPath manifest r) = some (f :: l))
    (hvol : fs.sliceCount (pathJoin (seriesPath manifest r) f) = some n) :
    ∃ evs, processRow fs manifest cwd i r = .ok evs ∧
      (∀ s, s ∈ writeSlices evs ↔ (s = 130 ∨ s = 134) ∧ s < n) ∧
      (131 ≤ n → n ≤ 134 → writeSlices evs = [130]) := by
  refine ⟨_, processRow_ok fs manifest cwd i r f l n hdir hvol, ?_, ?_⟩
  · intro s
    rw [writeSlices_rowEvents]
    simp [List.mem_filter, List.mem_range, and_comm]
  · intro h1 h2
    rw [writeSlices_rowEvents]
    interval_cases n <;> decide

/-- C5: a row whose directory listing fails (or lists an empty directory)
produces exactly a skip event naming the failed path, no write and no
exception, and the remaining rows are processed exactly as they would be
on their own. -/
theorem c5_skip_and_continue (fs : FS) (manifest cwd : String) (i : Nat)
    (r : CancerRow) (rest : List CancerRow)
    (hdir : fs.listdir (seriesPath manifest r) = none ∨
      fs.listdir (seriesPath manifest r) = some []) :
    processRow fs manifest cwd i r = .ok [.skip (seriesPath manifest r)] ∧
      processRows fs manifest cwd i (r :: rest) =
        (processRows fs manifest cwd (i + 1) rest).map
          (fun tail => (i, [Event.skip (seriesPath manifest r)]) :: tail) := by
  have hrow : processRow fs manifest cwd i r =
      .ok [.skip (seriesPath manifest r)] := by
    rcases hdir with h | h <;> simp only [processRow, h]
  refine ⟨hrow, ?_⟩
  rw [processRows, hrow]
  cases h2 : processRows fs manifest cwd (i + 1) rest <;>
    simp [h2, Except.map, Bind.bind, Except.bind, Pure.pure, Except.pure]

/-- C9: a failure of the volumetric read after a successful listing is
uncaught: the row evaluates to an error and the whole loop aborts with
that error instead of continuing. -/
theorem c9_read_failure_aborts (fs : FS) (manifest cwd : String) (i : Nat)
    (r : CancerRow) (rest : List CancerRow) (f : String) (l : List String)
    (hdir : fs.listdir (seriesPath manifest r) = some (f :: l))
    (hvol : fs.sliceCount (pathJoin (seriesPath manifest r) f) = none) :
    processRow fs manifest cwd i r =
        .error (pathJoin (seriesPath manifest r) f) ∧
      processRows fs manifest cwd i (r :: rest) =
        .error (pathJoin (seriesPath manifest r) f) := by
  have hrow : processRow fs manifest cwd i r =
      .error (pathJoin (seriesPath manifest r) f) := by
    simp only [processRow, hdir, hvol]
  refine ⟨hrow, ?_⟩
  rw [processRows, hrow]
  simp [Bind.bind, Except.bind]

/-- C6: every write event of a row goes to the directory determined by the
row's `cancer` flag alone — `images/cancer` under the working directory
when it is true, `images/nonmalignant` otherwise — and all write events of
one row share that one directory. -/
theorem c6_dest_dir (fs : FS) (manifest cwd : String) (i : Nat)
    (r : CancerRow) (evs : List Event)
    (hok : processRow fs manifest cwd i r = .ok evs)
    (d : String) (j s : Nat) (b : Bool)
    (hmem : Event.write d j s b ∈ evs) :
    d = destDir cwd r ∧
      destDir cwd r = (if r.cancer then pathJoin cwd "images/cancer"
        else pathJoin cwd "images/nonmalignant") ∧
      ∀ d2 j2 s2 b2, Event.write d2 j2 s2 b2 ∈ evs → d2 = d := by
  rcases hls : fs.listdir (seriesPath manifest r) with _ | fl
  · simp only [processRow, hls] at hok
    obtain rfl : [Event.skip (seriesPath manifest r)] = evs := by
      simpa using hok
    simp at hmem
  · rcases fl with _ | ⟨f, fl⟩
    · simp only [processRow, hls] at hok
      obtain rfl : [Event.skip (seriesPath manifest r)] = evs := by
        simpa using hok
      simp at hmem
    · rcases hvol : fs.sliceCount (pathJoin (seriesPath manifest r) f) with
        _ | n
      · rw [processRow_err_of_read fs manifest cwd i r f fl hls hvol] at hok
        exact absurd hok (by simp)
      · rw [processRow_ok fs manifest cwd i r f fl n hls hvol] at hok
        have hevs :
            ((List.range n).filterMap fun sliceNumber =>
              if sliceNumber = 130 ∨ sliceNumber = 134 then
                some (.write (destDir cwd r) i sliceNumber
                  (fs.writeOk
                    (pathJoin (destDir cwd r) (sliceFileName i sliceNumber))))
              else none) = evs := by
          simpa using hok
        subst hevs
        obtain ⟨s1, b1, he⟩ := rowEvents_dir hmem
        injection he with h1 h2 h3 h4
        subst h1
        refine ⟨rfl, rfl, ?_⟩
        intro d2 j2 s2 b2 hmem2
        obtain ⟨s3, b3, he2⟩ := rowEvents_dir hmem2
        injection he2 with g1 g2 g3 g4

/-- A directory is present after ensuring it. -/
lemma mem_ensureDir_self (dirs : List String) (d : String) :
    d ∈ ensureDir dirs d := by
  by_cases h : d ∈ dirs <;> simp [ensureDir, h]

/-- Ensuring a directory keeps every directory already present. -/
lemma mem_ensureDir_of_mem {dirs : List String} {a : String} (d : String)
    (h : a ∈ dirs) : a ∈ ensureDir dirs d := by
  by_cases hd : d ∈ dirs <;> simp [ensureDir, hd, h]

/-- Ensuring a directory never duplicates it: its final count is the old
count capped below by one. -/
lemma count_ensureDir_self (dirs : List String) (d : String) :
    (ensureDir dirs d).count d = max (dirs.count d) 1 := by
  by_cases h : d ∈ dirs
  · rw [ensureDir, if_pos h]
    have hc : 1 ≤ dirs.count d := List.count_pos_iff.mpr h
    exact (Nat.max_eq_left hc).symm
  · rw [ensureDir, if_neg h, List.count_append]
    have hc : dirs.count d = 0 := List.count_eq_zero.mpr h
    simp [hc]

/-- Ensuring one directory leaves the count of a different one alone. -/
lemma count_ensureDir_ne (dirs : List String) {d c : String} (h : d ≠ c) :
    (ensureDir dirs d).count c = dirs.count c := by
  by_cases hd : d ∈ dirs
  · rw [ensureDir, if_pos hd]
  · rw [ensureDir, if_neg hd, List.count_append]
    simp [List.count_singleton, h]

/-- The two output directories are present after the setup step. -/
lemma mem_setupDirs (dirs : List String) :
    "images/cancer" ∈ setupDirs dirs ∧ "images/nonmalignant" ∈ setupDirs dirs :=
  ⟨mem_ensureDir_of_mem _ (mem_ensureDir_self dirs _),
    mem_ensureDir_self _ _⟩

/-- C8: directory creation happens in the setup step independently of the
rows, a second run of the materializer leaves the directory state fixed,
both output directories exist afterwards, and neither is ever duplicated:
its count is the input count capped below by one. -/
theorem c8_dir_setup_idempotent (fs : FS) (dirs : List String)
    (manifest cwd : String) (rows rows2 : List CancerRow) :
    (create_image_datasets fs dirs manifest cwd rows).fst = setupDirs dirs ∧
      (create_image_datasets fs
          (create_image_datasets fs dirs manifest cwd rows).fst
          manifest cwd rows2).fst = setupDirs dirs ∧
      "images/cancer" ∈ setupDirs dirs ∧
      "images/nonmalignant" ∈ setupDirs dirs ∧
      (setupDirs dirs).count "images/cancer" =
        max (dirs.count "images/cancer") 1 ∧
      (setupDirs dirs).count "images/nonmalignant" =
        max (dirs.count "images/nonmalignant") 1 := by
  obtain ⟨h1, h2⟩ := mem_setupDirs dirs
  have hne : ("images/cancer" : String) ≠ "images/nonmalignant" := by decide
  have hidem : setupDirs (setupDirs dirs) = setupDirs dirs := by
    have e1 : ensureDir (setupDirs dirs) "images/cancer" = setupDirs dirs := by
      rw [ensureDir, if_pos h1]
    rw [setupDirs, e1, ensureDir, if_pos h2]
  refine ⟨rfl, ?_, h1, h2, ?_, ?_⟩
  · show setupDirs (setupDirs dirs) = setupDirs dirs
    exact hidem
  · rw [setupDirs, count_ensureDir_ne _ hne.symm, count_ensureDir_self]
  · rw [setupDirs, count_ensureDir_self, count_ensureDir_ne _ hne]

/-- A sample joined row with a true `cancer` flag. -/
def rowA : CancerRow :=
  ⟨"SubjA", "US", "USImage", "./dirA", "S1", 4, "P1", true⟩

/-- A file system whose every series directory holds one file decoding to
a 135-slice volume, with all writes succeeding. -/
def fsA : FS := ⟨fun _ => some ["a.dcm"], fun _ => some 135, fun _ => true⟩

/-- A file system whose volumes have 133 slices. -/
def fsB : FS := ⟨fun _ => some ["a.dcm"], fun _ => some 133, fun _ => true⟩

/-- A file system whose volumes have 131 slices. -/
def fsC : FS := ⟨fun _ => some ["a.dcm"], fun _ => some 131, fun _ => true⟩

/-- A file system on which every directory listing fails. -/
def fsMissing : FS := ⟨fun _ => none, fun _ => some 0, fun _ => true⟩

/-- A file system on which listings succeed but every volumetric read
fails. -/
def fsBadRead : FS := ⟨fun _ => some ["a.dcm"], fun _ => none, fun _ => true⟩

/-- Concrete instance of `c3_write_counts` on a 135-slice volume. -/
theorem c3_write_counts_witness :
    ∃ evs, processRow fsA "manifest" "cwd" 0 rowA = .ok evs ∧
      writeSlices evs = if (135 : Nat) = 135 then [130, 134] else [] :=
  c3_write_counts fsA "manifest" "cwd" 0 rowA "a.dcm" [] 135 rfl rfl (Or.inl rfl)

/-- Concrete instance of `c10_slice_index_set` on a 133-slice volume. -/
theorem c10_slice_index_set_witness :
    ∃ evs, processRow fsB "manifest" "cwd" 0 rowA = .ok evs ∧
      (∀ s, s ∈ writeSlices evs ↔ (s = 130 ∨ s = 134) ∧ s < 133) ∧
      (131 ≤ 133 → 133 ≤ 134 → writeSlices evs = [130]) :=
  c10_slice_index_set fsB "manifest" "cwd" 0 rowA "a.dcm" [] 133 rfl rfl

/-- Concrete instance of `c5_skip_and_continue` on a file system whose
listings fail. -/
theorem c5_skip_and_continue_witness :
    processRow fsMissing "manifest" "cwd" 0 rowA =
        .ok [.skip (seriesPath "manifest" rowA)] ∧
      processRows fsMissing "manifest" "cwd" 0 (rowA :: [rowA]) =
        (processRows fsMissing "manifest" "cwd" (0 + 1) [rowA]).map
          (fun tail => (0, [Event.skip (seriesPath "manifest" rowA)]) :: tail) :=
  c5_skip_and_continue fsMissing "manifest" "cwd" 0 rowA [rowA] (Or.inl rfl)

/-- Concrete instance of `c9_read_failure_aborts` on a file system whose
volumetric reads fail. -/
theorem c9_read_failure_aborts_witness :
    processRow fsBadRead "manifest" "cwd" 0 rowA =
        .error (pathJoin (seriesPath "manifest" rowA) "a.dcm") ∧
      processRows fsBadRead "manifest" "cwd" 0 (rowA :: [rowA]) =
        .error (pathJoin (seriesPath "manifest" rowA) "a.dcm") :=
  c9_read_failure_aborts fsBadRead "manifest" "cwd" 0 rowA [rowA] "a.dcm" []
    rfl rfl

/-- Concrete instance of `c6_dest_dir` on a 131-slice volume, whose single
write lands in the cancer directory. -/
theorem c6_dest_dir_witness :
    destDir "cwd" rowA = destDir "cwd" rowA ∧
      destDir "cwd" rowA = (if rowA.cancer then pathJoin "cwd" "images/cancer"
        else pathJoin "cwd" "images/nonmalignant") ∧
      ∀ d2 j2 s2 b2, Event.write d2 j2 s2 b2 ∈
          [Event.write (destDir "cwd" rowA) 0 130 true] →
        d2 = destDir "cwd" rowA :=
  c6_dest_dir fsC "manifest" "cwd" 0 rowA
    [Event.write (destDir "cwd" rowA) 0 130 true] (by rfl)
    (destDir "cwd" rowA) 0 130 true (List.mem_singleton_self _)

end CreateDataset
